import Mathlib

/-!
# Verification of the AI Resume Analyzer pipeline (`src/app.py`)

This file shallowly embeds the pure computational core of `app.py`:

* the local keyword-overlap scorer `calculate_ats_score`,
* the detailed weighted scorer `calculate_detailed_scores`,
* the markdown-fence stripping applied to model replies,
* Python's `str.format` failure behaviour on the prompt templates that
  contain literal brace characters,
* the per-facet JSON reconciliation loops
  (`extract_resume_data`, `generate_candidate_summary`,
  `analyze_ai_enhancements`, `analyze_resume_layout`,
  `analyze_soft_skills_and_sentiment`),
* the top-level Streamlit orchestration (which facets run when).

Texts are modelled as `List Char`.  The remote Gemini call is an external
effect: each facet function takes the gateway's reply (already decoded by
`json.loads`, modelled as `Option Json`, `none` = `json.JSONDecodeError`)
or the raw reply text as an explicit argument.  Python `round(x, 2)` is
modelled over exact rationals; `str.lower`/whitespace use the ASCII
behaviour of `Char.toLower`/`Char.isWhitespace`.
-/

/-! ## Python string primitives -/

/-- Python `str.strip()`: drop leading and trailing whitespace. -/
def pyStrip (t : List Char) : List Char :=
  ((t.dropWhile Char.isWhitespace).reverse.dropWhile Char.isWhitespace).reverse

/-- `leadsWith pat t` is true when `pat` occurs at the very start of `t`
(the list analogue of `str.startswith`). -/
def leadsWith : List Char → List Char → Bool
  | [], _ => true
  | _ :: _, [] => false
  | a :: as, b :: bs => if a = b then leadsWith as bs else false

/-- Index of the first occurrence of substring `pat` in `t`
(`str.find`, `none` when `pat in t` is false; `pat` is assumed nonempty). -/
def findSub? (pat : List Char) : List Char → Option Nat
  | [] => if leadsWith pat [] then some 0 else none
  | c :: t => if leadsWith pat (c :: t) then some 0 else (findSub? pat t).map (· + 1)

/-- `pat in t` (Python substring membership). -/
def containsSub (pat t : List Char) : Bool := (findSub? pat t).isSome

/-- Text before the first occurrence of `pat` (the whole text when `pat`
does not occur): `t.split(pat)[0]`. -/
def beforeFirst (pat t : List Char) : List Char :=
  match findSub? pat t with
  | some i => t.take i
  | none => t

/-- Text after the end of the first occurrence of `pat` (empty when `pat`
does not occur; only used under a prior `pat in t` check). -/
def afterFirst (pat t : List Char) : List Char :=
  match findSub? pat t with
  | some i => t.drop (i + pat.length)
  | none => []

/-- Fuel-indexed worker for Python `str.split(sep)`: repeatedly cut at the
leftmost occurrence of `sep`, scanning for the next occurrence after the
end of the previous one (non-overlapping, exactly as CPython does). -/
def pySplitAux (sep : List Char) : Nat → List Char → List (List Char)
  | 0, t => [t]
  | fuel + 1, t =>
    match findSub? sep t with
    | none => [t]
    | some i => t.take i :: pySplitAux sep fuel (t.drop (i + sep.length))

/-- Python `t.split(sep)` for a nonempty separator `sep`. -/
def pySplit (sep t : List Char) : List (List Char) := pySplitAux sep t.length t

/-! ### Facts about `leadsWith` and `findSub?` -/

theorem leadsWith_nil_iff (pat : List Char) : leadsWith pat [] = true ↔ pat = [] := by
  cases pat <;> simp [leadsWith]

theorem length_le_of_leadsWith :
    ∀ (pat t : List Char), leadsWith pat t = true → pat.length ≤ t.length := by
  intro pat
  induction pat with
  | nil => intro t _; simp
  | cons a as ih =>
    intro t h
    cases t with
    | nil => simp [leadsWith] at h
    | cons b bs =>
      simp only [leadsWith] at h
      split at h
      · simpa using ih bs h
      · exact absurd h (by simp)

theorem leadsWith_of_leadsWith_take {pat t : List Char} (n : ℕ)
    (h : leadsWith pat (t.take n) = true) : leadsWith pat t = true := by
  induction pat generalizing t n with
  | nil => simp [leadsWith]
  | cons a as ih =>
    cases t with
    | nil => simpa [List.take_nil] using h
    | cons b bs =>
      cases n with
      | zero => simp [leadsWith] at h
      | succ m =>
        simp only [List.take_succ_cons, leadsWith] at h ⊢
        by_cases hab : a = b
        · simpa [hab] using ih m (by simpa [hab] using h)
        · simp [hab] at h

theorem findSub?_sound {pat t : List Char} {i : ℕ} (h : findSub? pat t = some i) :
    leadsWith pat (t.drop i) = true := by
  induction t generalizing i with
  | nil =>
    simp only [findSub?] at h
    split at h
    · cases h; simpa using (by assumption : leadsWith pat [] = true)
    · cases h
  | cons c t ih =>
    simp only [findSub?] at h
    split at h
    · cases h; simpa using (by assumption : leadsWith pat (c :: t) = true)
    · match hm : findSub? pat t with
      | none => rw [hm] at h; cases h
      | some j =>
        rw [hm] at h
        simp only [Option.map_some'] at h
        cases h
        simpa [List.drop_succ_cons] using ih hm

theorem findSub?_min {pat t : List Char} {i : ℕ} (h : findSub? pat t = some i) :
    ∀ j, leadsWith pat (t.drop j) = true → i ≤ j := by
  induction t generalizing i with
  | nil =>
    simp only [findSub?] at h
    split at h
    · cases h; intro j _; exact Nat.zero_le _
    · cases h
  | cons c t ih =>
    simp only [findSub?] at h
    split at h
    · cases h; intro j _; exact Nat.zero_le _
    · match hm : findSub? pat t with
      | none => rw [hm] at h; cases h
      | some k =>
        rw [hm] at h
        simp only [Option.map_some'] at h
        cases h
        intro j hj
        cases j with
        | zero =>
          simp only [List.drop_zero] at hj
          exact absurd hj (by assumption)
        | succ m =>
          have := ih hm m (by simpa [List.drop_succ_cons] using hj)
          omega

theorem findSub?_none {pat t : List Char} (hpat : pat ≠ [])
    (h : findSub? pat t = none) : ∀ j, leadsWith pat (t.drop j) = false := by
  induction t with
  | nil =>
    intro j
    simp only [List.drop_nil]
    cases hl : leadsWith pat [] with
    | false => rfl
    | true => exact absurd ((leadsWith_nil_iff pat).mp hl) hpat
  | cons c t ih =>
    simp only [findSub?] at h
    split at h
    · cases h
    · intro j
      have ht : findSub? pat t = none := by
        match hm : findSub? pat t with
        | none => rfl
        | some k => rw [hm] at h; cases h
      cases j with
      | zero =>
        simp only [List.drop_zero]
        cases hl : leadsWith pat (c :: t) with
        | false => rfl
        | true => exact absurd hl (by assumption)
      | succ m => simpa [List.drop_succ_cons] using ih ht m

theorem findSub?_fits {pat t : List Char} {i : ℕ} (hpat : pat ≠ [])
    (h : findSub? pat t = some i) : i + pat.length ≤ t.length := by
  have hlen := length_le_of_leadsWith pat _ (findSub?_sound h)
  rw [List.length_drop] at hlen
  have hpos : 0 < pat.length := List.length_pos.mpr hpat
  omega

theorem findSub?_nil {pat : List Char} (hpat : pat ≠ []) : findSub? pat [] = none := by
  cases pat with
  | nil => exact absurd rfl hpat
  | cons a as => simp [findSub?, leadsWith]

/-- The text before the first occurrence of `pat` contains no occurrence of
`pat` at all. -/
theorem findSub?_beforeFirst {pat t : List Char} (hpat : pat ≠ []) :
    findSub? pat (beforeFirst pat t) = none := by
  unfold beforeFirst
  match hf : findSub? pat t with
  | none => exact hf
  | some i =>
    match hg : findSub? pat (t.take i) with
    | none => rfl
    | some j =>
      exfalso
      have hsound := findSub?_sound hg
      have hfits := findSub?_fits hpat hg
      have hdrop : (t.take i).drop j = (t.drop j).take (i - j) := by
        rw [List.drop_take]
      rw [hdrop] at hsound
      have hocc : leadsWith pat (t.drop j) = true :=
        leadsWith_of_leadsWith_take _ hsound
      have hmin : i ≤ j := findSub?_min hf j hocc
      have hlen : (t.take i).length ≤ i := by
        rw [List.length_take]; omega
      have hpos : 0 < pat.length := List.length_pos.mpr hpat
      omega

theorem beforeFirst_idem {pat t : List Char} (hpat : pat ≠ []) :
    beforeFirst pat (beforeFirst pat t) = beforeFirst pat t := by
  conv_lhs => rw [beforeFirst]
  rw [findSub?_beforeFirst hpat]

theorem pySplitAux_congr {sep : List Char} (hsep : sep ≠ []) :
    ∀ fuel fuel' t, t.length ≤ fuel → t.length ≤ fuel' →
      pySplitAux sep fuel t = pySplitAux sep fuel' t := by
  intro fuel
  induction fuel with
  | zero =>
    intro fuel' t h1 _
    have ht : t = [] := List.length_eq_zero.mp (Nat.le_zero.mp h1)
    subst ht
    cases fuel' with
    | zero => rfl
    | succ m => simp [pySplitAux, findSub?_nil hsep]
  | succ n ih =>
    intro fuel' t h1 h2
    cases fuel' with
    | zero =>
      have ht : t = [] := List.length_eq_zero.mp (Nat.le_zero.mp h2)
      subst ht
      simp [pySplitAux, findSub?_nil hsep]
    | succ m =>
      simp only [pySplitAux]
      match hf : findSub? sep t with
      | none => rfl
      | some i =>
        have hfits := findSub?_fits hsep hf
        have hpos : 0 < sep.length := List.length_pos.mpr hsep
        have hd : (t.drop (i + sep.length)).length = t.length - (i + sep.length) :=
          List.length_drop _ _
        exact congrArg _ (ih m _ (by omega) (by omega))

theorem pySplit_of_none {sep t : List Char} (h : findSub? sep t = none) :
    pySplit sep t = [t] := by
  unfold pySplit
  cases hl : t.length with
  | zero => rfl
  | succ n => simp [pySplitAux, h]

theorem pySplit_of_some {sep t : List Char} {i : ℕ} (hsep : sep ≠ [])
    (h : findSub? sep t = some i) :
    pySplit sep t = t.take i :: pySplit sep (t.drop (i + sep.length)) := by
  have hfits := findSub?_fits hsep h
  have hpos : 0 < sep.length := List.length_pos.mpr hsep
  conv_lhs => rw [pySplit]
  obtain ⟨n, hn⟩ : ∃ n, t.length = n + 1 := ⟨t.length - 1, by omega⟩
  rw [hn]
  simp only [pySplitAux, h]
  congr 1
  apply pySplitAux_congr hsep
  · rw [List.length_drop]; omega
  · exact le_refl _

theorem pySplit_headD {sep t : List Char} (hsep : sep ≠ []) :
    (pySplit sep t).headD [] = beforeFirst sep t := by
  match hf : findSub? sep t with
  | none => rw [pySplit_of_none hf]; simp [beforeFirst, hf]
  | some i => rw [pySplit_of_some hsep hf]; simp [beforeFirst, hf]

theorem getD_zero_eq_headD (l : List (List Char)) : l.getD 0 [] = l.headD [] := by
  cases l <;> rfl

theorem pySplit_getD_one {sep t : List Char} {i : ℕ} (hsep : sep ≠ [])
    (h : findSub? sep t = some i) :
    (pySplit sep t).getD 1 [] = beforeFirst sep (t.drop (i + sep.length)) := by
  rw [pySplit_of_some hsep h, List.getD_cons_succ, getD_zero_eq_headD,
    pySplit_headD hsep]

/-! ## Markdown fence stripping (the Response Extractor)

`app.py` repeats this pattern at lines 151–154, 349–352, 419–422, 487–490
and 568–571:

```
if '```json' in response_text:
    response_text = response_text.split('```json')[1].split('```')[0].strip()
elif '```' in response_text:
    response_text = response_text.split('```')[1].split('```')[0].strip()
```

with `response_text = response.text.strip()` beforehand.  `split(sep)[1]`
and `split(sep)[0]` are modelled by `pySplit … |>.getD 1 []` /
`… |>.headD []` with CPython's non-overlapping left-to-right split. -/

def jsonFenceMark : List Char := ("```json").toList

def fenceMark : List Char := ("```").toList

/-- The fence-stripping step of every facet of `app.py` (source semantics). -/
def extract_response_text (raw : List Char) : List Char :=
  let s := pyStrip raw
  if containsSub jsonFenceMark s then
    pyStrip ((pySplit fenceMark ((pySplit jsonFenceMark s).getD 1 [])).headD [])
  else if containsSub fenceMark s then
    pyStrip ((pySplit fenceMark ((pySplit fenceMark s).getD 1 [])).headD [])
  else s

/-- Modelled from the spec's words (§4.1): "if the text contains the
triple-backtick-json marker, take the substring between the first such
marker and the next triple-backtick marker; else if it contains any
triple-backtick marker, take the substring between the first and second
occurrence; else return the trimmed original text". -/
def extract_spec_description (raw : List Char) : List Char :=
  let s := pyStrip raw
  if containsSub jsonFenceMark s then
    pyStrip (beforeFirst fenceMark (afterFirst jsonFenceMark s))
  else if containsSub fenceMark s then
    pyStrip (beforeFirst fenceMark (afterFirst fenceMark s))
  else s

theorem jsonFenceMark_ne_nil : jsonFenceMark ≠ [] := by decide

theorem fenceMark_ne_nil : fenceMark ≠ [] := by decide

/-! ## JSON values

`json.loads` output is modelled by `Json`.  A facet's gateway interaction
(`model.generate_content` + fence stripping + `json.loads`) is summarised
by an `Option Json` argument: `none` is a `json.JSONDecodeError` (or a
failed call where the facet's own handler distinguishes it), `some j` a
successful decode of the reply into the value `j`. -/

inductive Json where
  | null
  | bool (b : Bool)
  | num (q : ℚ)
  | str (s : List Char)
  | arr (elts : List Json)
  | obj (fields : List (List Char × Json))

/-- Python `dict` lookup on the association-list representation
(`json.loads` produces unique keys, so first match is the match). -/
def lookupField : List (List Char × Json) → List Char → Option Json
  | [], _ => none
  | (k, v) :: rest, key => if key = k then some v else lookupField rest key

/-- Python `==` between a decoded JSON value and a string: only a string
with the same characters compares equal. -/
def jsonEqStr : Json → List Char → Bool
  | Json.str s, k => s == k
  | _, _ => false

/-- Python `key in value` for a decoded JSON value: key test on dicts,
element test on lists, substring test on strings, `TypeError` (modelled as
`none`) on numbers, booleans and `None`. -/
def pyContains : Json → List Char → Option Bool
  | Json.obj fs, key => some (lookupField fs key).isSome
  | Json.arr xs, key => some (xs.any fun x => jsonEqStr x key)
  | Json.str s, key => some (containsSub key s)
  | _, _ => none

/-- Python `d[key] = v` on a dict: replace in place when the key exists,
append otherwise (CPython insertion order). -/
def objInsert (fs : List (List Char × Json)) (k : List Char) (v : Json) :
    List (List Char × Json) :=
  if (lookupField fs k).isSome then
    fs.map fun kv => if kv.1 = k then (kv.1, v) else kv
  else fs ++ [(k, v)]

/-- Python `value[key] = v`: works on dicts, raises `TypeError` (`none`)
on lists (string index), strings, numbers, booleans and `None`. -/
def pySetItem : Json → List Char → Json → Option Json
  | Json.obj fs, k, v => some (Json.obj (objInsert fs k v))
  | _, _, _ => none

/-- One iteration of the reconciliation loop of `app.py`
(`if field not in result: result[field] = default`); `none` models an
exception escaping to the enclosing `except` block. -/
def pyNotInThenSet (j : Json) (k : List Char) (d : Json) : Option Json :=
  match pyContains j k with
  | none => none
  | some true => some j
  | some false => pySetItem j k d

/-- The whole `for field, default in required_fields.items(): …` loop
(lines 160–162, 433–435, 504–506 and 590–592 of `app.py`). -/
def reconcileLoop (j : Json) (defaults : List (List Char × Json)) : Option Json :=
  defaults.foldlM (fun acc kd => pyNotInThenSet acc kd.1 kd.2) j

/-- Python `d.get(key, default)`: `AttributeError` (`none`) on non-dicts. -/
def pyGetD : Json → List Char → Json → Option Json
  | Json.obj fs, key, dflt => some ((lookupField fs key).getD dflt)
  | _, _, _ => none

/-- Python `len(value)`: defined for lists, strings and dicts,
`TypeError` (`none`) otherwise. -/
def pyLen : Json → Option ℕ
  | Json.arr xs => some xs.length
  | Json.str s => some s.length
  | Json.obj fs => some fs.length
  | _ => none

/-! ## Python `str.format`

`extract_resume_data` and `analyze_soft_skills_and_sentiment` build their
prompts with `template.format(…)` on triple-quoted templates that contain
*literal* brace characters (the JSON examples).  CPython parses `{…}`
replacement fields; an unknown or malformed field name raises
(`KeyError`/`ValueError`), which the enclosing `except Exception` turns
into the facet's fallback value.  `pyFormatAux` models exactly this
scanning: `{{`/`}}` escapes, a lone `}` raises, `{name}` substitutes a
provided value, `{` inside a field name raises, and a missing key raises
(`none`).  Format specs after `:`/`!` are skipped to the next `}` — in
`app.py` such a field always has an unknown name, so the lookup fails
first. -/

/-- Keyword-argument lookup for `str.format`. -/
def lookupVal : List (List Char × List Char) → List Char → Option (List Char)
  | [], _ => none
  | (k, v) :: rest, name => if name = k then some v else lookupVal rest name

def pyFormatAux (vals : List (List Char × List Char)) :
    Nat → List Char → Option (List Char)
  | _, [] => some []
  | 0, _ :: _ => none
  | fuel + 1, '\x7b' :: '\x7b' :: rest => (pyFormatAux vals fuel rest).map ('\x7b' :: ·)
  | fuel + 1, '\x7d' :: '\x7d' :: rest => (pyFormatAux vals fuel rest).map ('\x7d' :: ·)
  | _ + 1, '\x7d' :: _ => none
  | fuel + 1, '\x7b' :: rest =>
    let name := rest.takeWhile fun c => !(c == ':' || c == '!' || c == '\x7b' || c == '\x7d')
    match rest.dropWhile fun c => !(c == ':' || c == '!' || c == '\x7b' || c == '\x7d') with
    | [] => none
    | '\x7b' :: _ => none
    | '\x7d' :: rest' =>
      match lookupVal vals name with
      | none => none
      | some v => (pyFormatAux vals fuel rest').map (v ++ ·)
    | _ :: rest' =>
      match lookupVal vals name with
      | none => none
      | some v =>
        match rest'.dropWhile (fun c => !(c == '\x7d')) with
        | '\x7d' :: rest2 => (pyFormatAux vals fuel rest2).map (v ++ ·)
        | _ => none
  | fuel + 1, c :: rest => (pyFormatAux vals fuel rest).map (c :: ·)

/-- `template.format(**vals)`: `some` the substituted text, `none` when
CPython would raise. -/
def pyFormat (vals : List (List Char × List Char)) (tpl : List Char) :
    Option (List Char) :=
  pyFormatAux vals tpl.length tpl

/-! ## Prompt templates fed to `str.format`

Only the templates that are actually passed to `.format` are needed: the
free-text evaluation prompt of `analyze_resume` (lines 66–86), the
extraction prompt of `extract_resume_data` (lines 116–134) and the
soft-skills prompt of `analyze_soft_skills_and_sentiment` (lines
308–343).  The other facets build their prompts with f-strings or `+`,
which cannot raise.  Literal braces are written `\x7b`/`\x7d`. -/

def resumeTextKey : List Char := ("resume_text").toList

def jobDescriptionKey : List Char := ("job_description").toList

def textKey : List Char := ("text").toList

/-- `base_prompt` of `analyze_resume` (no literal braces). -/
def analyzeBasePrompt : List Char :=
  ("\n        As an experienced HR professional with technical expertise, analyze the following resume.\n        Please provide:\n        1. Overall evaluation of the candidate\x27s profile\n        2. Key skills assessment\n        3. Skill improvement recommendations\n        4. Suggested courses for skill enhancement\n        5. Strengths and weaknesses analysis\n        Resume:\n        \x7bresume_text\x7d\n        ").toList

/-- The block appended to `base_prompt` when a job description is given. -/
def analyzeJdBlock : List Char :=
  ("\n            Job Description Comparison:\n            \x7bjob_description\x7d\n            Additional Analysis:\n            - Skills matching with job requirements\n            - Experience alignment\n            - Qualification fit\n            - Areas for improvement specific to this role\n            ").toList

/-- The `prompt` of `extract_resume_data`: its JSON example contains
literal braces, so `.format` always raises. -/
def extractPromptText : List Char :=
  ("\n        Extract key information from this resume and return it in a simple JSON format.\n        Only include information that is explicitly present in the resume.\n        Format your response as a simple JSON object with these exact fields:\n        \x7b\n            \"personal_info\": \x7b\n                \"name\": \"extracted name\",\n                \"email\": \"extracted email\",\n                \"phone\": \"extracted phone\",\n                \"location\": \"extracted location\"\n            \x7d,\n            \"skills\": [\"skill1\", \"skill2\"],\n            \"education\": [\x7b\"degree\": \"degree name\", \"institution\": \"school name\", \"year\": \"year\", \"gpa\": \"gpa\"\x7d],\n            \"experience\": [\x7b\"title\": \"job title\", \"company\": \"company name\", \"duration\": \"duration\", \"responsibilities\": [\"resp1\", \"resp2\"]\x7d],\n            \"certifications\": [\"cert1\", \"cert2\"]\n        \x7d\n        \n        Resume text: \x7bresume_text\x7d\n        ").toList

/-- The `prompt` of `analyze_soft_skills_and_sentiment`: also holds a
literal-brace JSON example, so `.format` always raises. -/
def softSkillsPromptText : List Char :=
  ("\n        Analyze the following resume text for soft skills and writing tone. Provide:\n        \n        1. Soft Skills Analysis:\n        - List all detected soft skills (e.g., leadership, communication, teamwork)\n        - Rate each skill\x27s prominence (low, medium, high)\n        \n        2. Writing Style Analysis:\n        - Formality level (1-10)\n        - Professionalism (1-10)\n        - Action-orientation (1-10)\n        - Clarity (1-10)\n        \n        3. Overall Tone Assessment:\n        - Confidence level\n        - Key tone characteristics\n        - Areas for improvement\n        \n        Format the response as a JSON object with these exact fields:\n        \x7b\n            \"soft_skills\": [\x7b\"skill\": \"skill name\", \"level\": \"prominence level\", \"evidence\": \"brief example\"\x7d],\n            \"writing_style\": \x7b\n                \"formality\": number,\n                \"professionalism\": number,\n                \"action_orientation\": number,\n                \"clarity\": number\n            \x7d,\n            \"tone_assessment\": \x7b\n                \"confidence_level\": \"description\",\n                \"characteristics\": [\"characteristic1\", \"characteristic2\"],\n                \"improvements\": [\"improvement1\", \"improvement2\"]\n            \x7d\n        \x7d\n        \n        Resume text: \x7btext\x7d\n        ").toList

/-! ## Keyword scorer (`calculate_ats_score`, lines 44–58) -/

/-- Worker for Python's no-argument `str.split()`: cut at whitespace runs,
dropping empty segments. -/
def wordsAux : List Char → List Char → List (List Char)
  | [], acc => if acc = [] then [] else [acc.reverse]
  | c :: t, acc =>
    if c.isWhitespace then
      if acc = [] then wordsAux t [] else acc.reverse :: wordsAux t []
    else wordsAux t (c :: acc)

/-- Python `text.split()`. -/
def pyWords (t : List Char) : List (List Char) := wordsAux t []

/-- Python `word.lower()` (ASCII model). -/
def lowerW (w : List Char) : List Char := w.map Char.toLower

/-- `set(word.lower() for word in text.split() if len(word) > 2)` —
the qualifying-token set used throughout `app.py`. -/
def qualTokens (t : List Char) : Finset (List Char) :=
  (((pyWords t).filter fun w => 2 < w.length).map lowerW).toFinset

/-- Python `round(x, 2)` over exact rationals (nearest, ties away from the
representable binary-float noise; agrees with CPython away from exact
half-cent values). -/
def round2 (q : ℚ) : ℚ := (round (q * 100) : ℚ) / 100

/-- `calculate_ats_score` (lines 44–58): returns the rounded percentage
and the set of matched words. -/
def calculate_ats_score (resume_text job_description : List Char) :
    ℚ × Finset (List Char) :=
  if resume_text = [] ∨ job_description = [] then (0, ∅)
  else
    let resume_words := qualTokens resume_text
    let jd_words := qualTokens job_description
    let matched_words := resume_words ∩ jd_words
    let score : ℚ :=
      if jd_words = ∅ then 0
      else ((matched_words.card : ℚ) / (jd_words.card : ℚ)) * 100
    (round2 score, matched_words)

/-! ## Detailed weighted scoring (`calculate_detailed_scores`, lines 269–303) -/

/-- `skill.lower()` on one iterated element: strings are lowered,
anything else raises `AttributeError` (`none`). -/
def lowerStrElem : Json → Option (List Char)
  | Json.str s => some (lowerW s)
  | _ => none

/-- `set(skill.lower() for skill in value)`: iterates list elements,
the characters of a string, or the keys of a dict; raises (`none`) on
non-iterables or non-string list elements. -/
def pyLowerStrSet : Json → Option (Finset (List Char))
  | Json.arr xs => (xs.mapM lowerStrElem).map List.toFinset
  | Json.str s => some ((s.map fun c => [c.toLower]).toFinset)
  | Json.obj fs => some ((fs.map fun kv => lowerW kv.1).toFinset)
  | _ => none

structure DetailedScores where
  total_score : ℚ
  ats_score : ℚ
  skills_score : ℚ
  experience_score : ℚ
  matched_skills : Finset (List Char)
  missing_skills : Finset (List Char)

/-- `calculate_detailed_scores`: `none` models an exception caught by the
function's own `except` (which returns `None`).  `resume_data` is the
dict produced by `extract_resume_data`. -/
def calculate_detailed_scores (resume_text job_description : List Char)
    (resume_data : Json) : Option DetailedScores :=
  match resume_data with
  | Json.obj fs =>
    match pyLowerStrSet ((lookupField fs ("skills").toList).getD (Json.arr [])) with
    | none => none
    | some resume_skills =>
      match pyLen ((lookupField fs ("experience").toList).getD (Json.arr [])) with
      | none => none
      | some nExp =>
        let jd_words := qualTokens job_description
        let resume_words := qualTokens resume_text
        let matched_words := resume_words ∩ jd_words
        let ats_score : ℚ :=
          if jd_words = ∅ then 0
          else ((matched_words.card : ℚ) / (jd_words.card : ℚ)) * 100
        let jd_skills := qualTokens job_description
        let matched_skills := jd_skills ∩ resume_skills
        let skills_score : ℚ :=
          if jd_skills = ∅ then 0
          else ((matched_skills.card : ℚ) / (jd_skills.card : ℚ)) * 100
        let experience_score : ℚ := ((min 100 (nExp * 20) : ℕ) : ℚ)
        let total_score :=
          ats_score * (3 / 10) + skills_score * (4 / 10) + experience_score * (3 / 10)
        some { total_score := round2 total_score
               ats_score := round2 ats_score
               skills_score := round2 skills_score
               experience_score := round2 experience_score
               matched_skills := matched_skills
               missing_skills := jd_skills \ resume_skills }
  | _ => none

/-! ## Facet schemas (the `default_data` / `required_fields` dicts) -/

/-- `default_data` of `extract_resume_data` (lines 98–109); also iterated
as the required-fields source of its reconciliation loop. -/
def extractDefaults : List (List Char × Json) :=
  [(("personal_info").toList, Json.obj
      [(("name").toList, Json.str []),
       (("email").toList, Json.str []),
       (("phone").toList, Json.str []),
       (("location").toList, Json.str [])]),
   (("skills").toList, Json.arr []),
   (("education").toList, Json.arr []),
   (("experience").toList, Json.arr []),
   (("certifications").toList, Json.arr [])]

def defaultResumeData : Json := Json.obj extractDefaults

/-- `required_fields` of `analyze_resume_layout` (lines 428–432). -/
def layoutDefaults : List (List Char × Json) :=
  [(("layout_analysis").toList, Json.obj
      [(("strengths").toList, Json.arr []),
       (("weaknesses").toList, Json.arr [])]),
   (("formatting_issues").toList, Json.arr []),
   (("design_recommendations").toList, Json.arr [])]

/-- `required_fields` of `generate_candidate_summary` (lines 496–503). -/
def summaryDefaults : List (List Char × Json) :=
  [(("professional_summary").toList, Json.str []),
   (("key_qualifications").toList, Json.arr []),
   (("core_skills").toList, Json.arr []),
   (("major_achievements").toList, Json.arr []),
   (("experience_level").toList, Json.str []),
   (("career_focus").toList, Json.str [])]

/-- `required_fields` of `analyze_ai_enhancements` (lines 577–589). -/
def enhDefaults : List (List Char × Json) :=
  [(("domain_analysis").toList, Json.obj
      [(("primary_domain").toList, Json.str []),
       (("technical_depth").toList, Json.str []),
       (("specialized_terminology").toList, Json.arr [])]),
   (("enhancement_opportunities").toList, Json.arr []),
   (("fine_tuning_recommendations").toList, Json.obj
      [(("dataset_suggestions").toList, Json.arr []),
       (("model_improvements").toList, Json.arr []),
       (("context_enhancements").toList, Json.arr [])])]

/-! ## Facet functions

Each facet takes the result of `json.loads` on the fence-stripped
gateway reply as `Option Json` (`none` = decode failure, and for
`analyze_resume` the raw reply text as `Option (List Char)` with `none`
= gateway failure). -/

/-- One pass of the nested `personal_info` fill of `extract_resume_data`
(lines 165–167):
`if field not in parsed_data.get("personal_info", {}):
    parsed_data.setdefault("personal_info", {})[field] = ""`. -/
def personalStep (r : Json) (field : List Char) : Option Json :=
  match pyGetD r ("personal_info").toList (Json.obj []) with
  | none => none
  | some pi =>
    match pyContains pi field with
    | none => none
    | some true => some r
    | some false =>
      match r with
      | Json.obj fs =>
        let cur := (lookupField fs ("personal_info").toList).getD (Json.obj [])
        match pySetItem cur field (Json.str []) with
        | none => none
        | some cur' => some (Json.obj (objInsert fs ("personal_info").toList cur'))
      | _ => none

/-- `extract_resume_data` (lines 96–178).  The `.format` call on
`extractPromptText` raises before the model is ever consulted, so the
`some _` branch below is dead code kept for fidelity. -/
def extract_resume_data (resume_text : List Char) (parsed : Option Json) : Json :=
  if resume_text = [] then defaultResumeData
  else
    match pyFormat [(resumeTextKey, resume_text)] extractPromptText with
    | none => defaultResumeData
    | some _ =>
      match parsed with
      | none => defaultResumeData
      | some j =>
        match (reconcileLoop j extractDefaults).bind fun r =>
            [("name").toList, ("email").toList, ("phone").toList,
             ("location").toList].foldlM personalStep r with
        | some r => r
        | none => defaultResumeData

/-- `analyze_resume_layout` (lines 359–444): `None` on empty input, on
decode failure, and on any exception escaping the reconciliation loop. -/
def analyze_resume_layout (resume_text : List Char) (parsed : Option Json) :
    Option Json :=
  if resume_text = [] then none
  else
    match parsed with
    | none => none
    | some j => reconcileLoop j layoutDefaults

/-- `generate_candidate_summary` (lines 446–515).  The prompt is built by
string concatenation (no `.format`), so only the reply processing can
fail; `resume_text`/`job_description` feed the prompt only. -/
def generate_candidate_summary (resume_text job_description : List Char)
    (parsed : Option Json) : Option Json :=
  match parsed with
  | none => none
  | some j => reconcileLoop j summaryDefaults

/-- `analyze_ai_enhancements` (lines 517–601), same shape as the
candidate summary but with the enhancement schema. -/
def analyze_ai_enhancements (resume_text job_description : List Char)
    (parsed : Option Json) : Option Json :=
  match parsed with
  | none => none
  | some j => reconcileLoop j enhDefaults

/-- `analyze_soft_skills_and_sentiment` (lines 305–357): formats
`softSkillsPromptText` (which always raises) and would otherwise return
the decoded reply unreconciled. -/
def analyze_soft_skills_and_sentiment (resume_text : List Char)
    (parsed : Option Json) : Option Json :=
  match pyFormat [(textKey, resume_text)] softSkillsPromptText with
  | none => none
  | some _ => parsed

/-- Result of `analyze_resume` (lines 61–94): the error dict for empty
input (truthy!), the stripped reply text, or `None` on failure. -/
inductive AnalysisOut where
  | errorObj
  | ok (text : List Char)
  | failed

/-- `analyze_resume` (lines 61–94). -/
def analyze_resume (resume_text job_description : List Char)
    (reply : Option (List Char)) : AnalysisOut :=
  if resume_text = [] then .errorObj
  else
    let tpl := analyzeBasePrompt ++
      (if job_description = [] then [] else analyzeJdBlock)
    match pyFormat [(resumeTextKey, resume_text),
                    (jobDescriptionKey, job_description)] tpl with
    | none => .failed
    | some _ =>
      match reply with
      | some t => .ok (pyStrip t)
      | none => .failed

/-- Python truthiness of the value bound to `analysis` at line 697,
tested by `if analysis:` at line 700. -/
def truthyAnalysis : AnalysisOut → Bool
  | .errorObj => true
  | .ok t => decide (t ≠ [])
  | .failed => false

/-! ## Top-level orchestration (lines 688–1108)

The button handler runs `extract_resume_data`, `analyze_resume` and
`calculate_ats_score`, then guards *everything else* — ATS display,
candidate summary, AI/ML enhancements, layout critique and course
recommendations — behind `if analysis:` (line 700). -/

/-- Whether a facet was computed during a run, and with what value. -/
inductive Computed (α : Type) where
  | notRun
  | ran (a : α)

/-- The per-facet gateway outcomes of one analysis run (the remote model
is called once per facet). -/
structure GatewayReplies where
  extractParsed : Option Json
  analysisText : Option (List Char)
  summaryParsed : Option Json
  enhParsed : Option Json
  layoutParsed : Option Json

/-- What one run computes. `course_skills` records the skill set passed to
the external `recommend_courses` lookup when it is invoked (`Courses.py`
is outside the embedded sources and is treated as opaque; Python passes a
list in set-iteration order, modelled as the underlying set). -/
structure AnalysisBundle where
  resume_data : Computed Json
  analysis : Computed AnalysisOut
  ats : Computed (ℚ × Finset (List Char))
  candidate_summary : Computed (Option Json)
  ai_enhancements : Computed (Option Json)
  layout_analysis : Computed (Option Json)
  course_skills : Computed (Finset (List Char))

/-- `skills = resume_data['skills'] if resume_data and 'skills' in
resume_data else []` (lines 974–976), keeping the string entries (the
extraction default always makes this the empty list). -/
def pySkillsOf (rd : Json) : List (List Char) :=
  match rd with
  | Json.obj fs =>
    match lookupField fs ("skills").toList with
    | some (Json.arr xs) =>
      xs.filterMap fun x => match x with | Json.str s => some s | _ => none
    | _ => []
  | _ => []

/-- The analyze-button handler (lines 688–1108): which facets are
computed, and from which gateway outcome each one is derived. -/
def analyzeFlow (resume_text job_description : List Char)
    (g : GatewayReplies) : AnalysisBundle :=
  let resume_data := extract_resume_data resume_text g.extractParsed
  let analysis := analyze_resume resume_text job_description g.analysisText
  let ats := calculate_ats_score resume_text job_description
  if truthyAnalysis analysis then
    let skillsSet : Finset (List Char) :=
      (pySkillsOf resume_data).toFinset ∪
        (if job_description = [] then ∅ else qualTokens job_description)
    { resume_data := .ran resume_data
      analysis := .ran analysis
      ats := .ran ats
      candidate_summary :=
        .ran (generate_candidate_summary resume_text job_description g.summaryParsed)
      ai_enhancements :=
        .ran (analyze_ai_enhancements resume_text job_description g.enhParsed)
      layout_analysis := .ran (analyze_resume_layout resume_text g.layoutParsed)
      course_skills := if skillsSet = ∅ then .notRun else .ran skillsSet }
  else
    { resume_data := .ran resume_data
      analysis := .ran analysis
      ats := .ran ats
      candidate_summary := .notRun
      ai_enhancements := .notRun
      layout_analysis := .notRun
      course_skills := .notRun }

/-! ## Helper lemmas: rounding and score bounds -/

theorem round2_zero : round2 0 = 0 := by
  unfold round2
  norm_num

theorem round2_natCast (n : ℕ) : round2 (n : ℚ) = n := by
  unfold round2
  have h : ((n : ℚ) * 100) = ((n * 100 : ℕ) : ℚ) := by push_cast; ring
  rw [h, round_natCast]
  push_cast
  field_simp

theorem round2_mono {a b : ℚ} (h : a ≤ b) : round2 a ≤ round2 b := by
  unfold round2
  have hr : round (a * 100) ≤ round (b * 100) := by
    rw [round_eq, round_eq]
    exact Int.floor_le_floor (by linarith)
  have hq : ((round (a * 100) : ℤ) : ℚ) ≤ ((round (b * 100) : ℤ) : ℚ) :=
    Int.cast_le.mpr hr
  exact div_le_div_of_nonneg_right hq (by norm_num) |>.trans_eq rfl

theorem round2_nonneg {q : ℚ} (h : 0 ≤ q) : 0 ≤ round2 q := by
  have := round2_mono h
  rwa [round2_zero] at this

theorem round2_le_100 {q : ℚ} (h : q ≤ 100) : round2 q ≤ 100 := by
  have h100 : round2 (100 : ℚ) = 100 := by
    have := round2_natCast 100
    norm_num at this
    exact this
  have := round2_mono h
  rwa [h100] at this

theorem qualTokens_nil : qualTokens [] = ∅ := rfl

/-- The raw overlap ratio is at most 100 when the denominator set is
nonempty. -/
theorem ratio_le_100 {s t : Finset (List Char)} (h : t ≠ ∅) :
    ((s ∩ t).card : ℚ) / (t.card : ℚ) * 100 ≤ 100 := by
  have hpos : 0 < t.card := Finset.card_pos.mpr (Finset.nonempty_iff_ne_empty.mpr h)
  have hposq : (0 : ℚ) < (t.card : ℚ) := by exact_mod_cast hpos
  have hle : (s ∩ t).card ≤ t.card := Finset.card_le_card (Finset.inter_subset_right)
  have hdiv : ((s ∩ t).card : ℚ) / (t.card : ℚ) ≤ 1 := by
    rw [div_le_one hposq]
    exact_mod_cast hle
  linarith

theorem ratio_nonneg {s t : Finset (List Char)} :
    0 ≤ ((s ∩ t).card : ℚ) / (t.card : ℚ) * 100 := by
  positivity

/-- Closed form of the percentage returned by `calculate_ats_score`. -/
theorem ats_fst_eq (A B : List Char) :
    (calculate_ats_score A B).1 =
      if qualTokens B = ∅ then 0
      else round2 ((((qualTokens A ∩ qualTokens B).card : ℚ) /
        ((qualTokens B).card : ℚ)) * 100) := by
  unfold calculate_ats_score
  by_cases hA : A = []
  · subst hA
    simp only [true_or, if_pos, eq_self_iff_true]
    by_cases hB : qualTokens B = ∅
    · rw [if_pos hB]
    · rw [if_neg hB, qualTokens_nil]
      simp [round2_zero]
  · by_cases hB : B = []
    · subst hB
      rw [if_pos (Or.inr rfl), if_pos qualTokens_nil]
    · rw [if_neg (by simp [hA, hB])]
      simp only
      by_cases hq : qualTokens B = ∅
      · rw [if_pos hq, if_pos hq, round2_zero]
      · rw [if_neg hq, if_neg hq]

theorem ats_fst_nonneg (A B : List Char) : 0 ≤ (calculate_ats_score A B).1 := by
  rw [ats_fst_eq]
  by_cases hq : qualTokens B = ∅
  · rw [if_pos hq]
  · rw [if_neg hq]
    exact round2_nonneg ratio_nonneg

theorem ats_fst_le_100 (A B : List Char) : (calculate_ats_score A B).1 ≤ 100 := by
  rw [ats_fst_eq]
  by_cases hq : qualTokens B = ∅
  · rw [if_pos hq]; norm_num
  · rw [if_neg hq]
    exact round2_le_100 (ratio_le_100 hq)

/-! ## Claim C2 -/

/-- C2: for all texts `A` (resume) and `B` (job description),
`calculate_ats_score A B` returns the percentage
`|resumeTokens ∩ jdTokens| / |jdTokens| * 100` rounded to two decimals —
`0` when the qualifying job-description token set is empty (no division
by zero) — and the percentage always lies in `[0, 100]`. -/
theorem c2_ats_score_formula_and_bounds (A B : List Char) :
    ((calculate_ats_score A B).1 =
      (if qualTokens B = ∅ then 0
       else round2 ((((qualTokens A ∩ qualTokens B).card : ℚ) /
         ((qualTokens B).card : ℚ)) * 100)))
    ∧ 0 ≤ (calculate_ats_score A B).1
    ∧ (calculate_ats_score A B).1 ≤ 100 :=
  ⟨ats_fst_eq A B, ats_fst_nonneg A B, ats_fst_le_100 A B⟩

/-! ## Claim C3 -/

def resumeSample : List Char :=
  ("Experienced Python developer with AWS and Docker skills").toList

def jdSample : List Char :=
  ("Looking for Python AWS Kubernetes engineer").toList

theorem ats_snd_eq (A B : List Char) :
    (calculate_ats_score A B).2 =
      if A = [] ∨ B = [] then ∅ else qualTokens A ∩ qualTokens B := by
  unfold calculate_ats_score
  split <;> simp

theorem sample_jd_tokens : qualTokens jdSample =
    ({("looking").toList, ("for").toList, ("python").toList,
      ("aws").toList, ("kubernetes").toList, ("engineer").toList} :
      Finset (List Char)) := by decide

theorem sample_resume_tokens : qualTokens resumeSample =
    ({("experienced").toList, ("python").toList, ("developer").toList,
      ("with").toList, ("aws").toList, ("and").toList, ("docker").toList,
      ("skills").toList} : Finset (List Char)) := by decide

theorem ats_sample_fst : (calculate_ats_score resumeSample jdSample).1 = 3333 / 100 := by
  rw [ats_fst_eq, sample_jd_tokens, sample_resume_tokens]
  rw [if_neg (by decide)]
  have hcard : ((({("experienced").toList, ("python").toList, ("developer").toList,
      ("with").toList, ("aws").toList, ("and").toList, ("docker").toList,
      ("skills").toList} : Finset (List Char)) ∩
      ({("looking").toList, ("for").toList, ("python").toList,
        ("aws").toList, ("kubernetes").toList, ("engineer").toList} :
        Finset (List Char))).card) = 2 := by decide
  have hc6 : (({("looking").toList, ("for").toList, ("python").toList,
      ("aws").toList, ("kubernetes").toList, ("engineer").toList} :
      Finset (List Char)).card) = 6 := by decide
  rw [hcard, hc6, round2, round_eq]
  push_cast
  have hfl : ⌊(2:ℚ) / 6 * 100 * 100 + 1 / 2⌋ = 3333 := by
    rw [Int.floor_eq_iff]
    norm_num
  rw [hfl]
  norm_num

theorem ats_sample_snd : (calculate_ats_score resumeSample jdSample).2 =
    ({("python").toList, ("aws").toList} : Finset (List Char)) := by
  rw [ats_snd_eq, if_neg (by decide), sample_jd_tokens, sample_resume_tokens]
  decide

/-- C3 counterexample: on the spec's end-to-end scenario the score is not
`40.0`, and the qualifying job-description token set is not the spec's
five-element set — the token `for` has length 3 and survives the
`len(word) > 2` filter. -/
theorem c3_counterexample :
    (calculate_ats_score resumeSample jdSample).1 ≠ 40
    ∧ qualTokens jdSample ≠
        ({("python").toList, ("aws").toList, ("kubernetes").toList,
          ("looking").toList, ("engineer").toList} : Finset (List Char)) := by
  constructor
  · rw [ats_sample_fst]
    norm_num
  · decide

/-- C3 amended: on that scenario the qualifying job-description token set
is `{looking, for, python, aws, kubernetes, engineer}` (six tokens — the
`len ≤ 2` filter keeps `for`), the matched set is `{python, aws}`, and the
percentage is `2/6·100` rounded to two decimals, i.e. `33.33`. -/
theorem c3_amended_score :
    (calculate_ats_score resumeSample jdSample).1 = 3333 / 100
    ∧ (calculate_ats_score resumeSample jdSample).2 =
        ({("python").toList, ("aws").toList} : Finset (List Char))
    ∧ qualTokens jdSample =
      ({("looking").toList, ("for").toList, ("python").toList,
        ("aws").toList, ("kubernetes").toList, ("engineer").toList} :
        Finset (List Char)) :=
  ⟨ats_sample_fst, ats_sample_snd, sample_jd_tokens⟩

/-! ## Claim C8 -/

/-- C8: whenever the qualifying-token set of `B` is a strict subset of
that of `A`, `calculate_ats_score A A` scores at least
`calculate_ats_score A B` (monotonicity under added shared tokens). -/
theorem c8_self_score_ge (A B : List Char)
    (h : qualTokens B ⊂ qualTokens A) :
    (calculate_ats_score A B).1 ≤ (calculate_ats_score A A).1 := by
  have hA_ne : qualTokens A ≠ ∅ := by
    intro he
    rw [he] at h
    exact Finset.not_ssubset_empty _ h
  have hAnil : A ≠ [] := by
    intro he
    exact hA_ne (he ▸ qualTokens_nil)
  have hAA : (calculate_ats_score A A).1 = 100 := by
    rw [ats_fst_eq, if_neg hA_ne, Finset.inter_self]
    have hpos : 0 < (qualTokens A).card :=
      Finset.card_pos.mpr (Finset.nonempty_iff_ne_empty.mpr hA_ne)
    have hq : ((qualTokens A).card : ℚ) ≠ 0 := by
      exact_mod_cast Nat.pos_iff_ne_zero.mp hpos
    rw [div_self hq, one_mul]
    have := round2_natCast 100
    norm_num at this
    exact this
  rw [hAA]
  exact ats_fst_le_100 A B

/-- C8 witness: a concrete pair with `qualTokens B ⊂ qualTokens A`. -/
theorem c8_self_score_ge_witness :
    qualTokens (("alpha").toList) ⊂ qualTokens (("alpha beta").toList)
    ∧ (calculate_ats_score (("alpha beta").toList) (("alpha").toList)).1 ≤
        (calculate_ats_score (("alpha beta").toList) (("alpha beta").toList)).1 :=
  ⟨by decide, c8_self_score_ge (("alpha beta").toList) (("alpha").toList) (by decide)⟩

/-! ## Claim C6 -/

def fenceTricky : List Char := ("```json ok ````json").toList

/-- C6 counterexample: on `"```json ok ````json"` CPython's
`split('```json')[1]` cuts at the *second* `'```json'` occurrence before
searching for the closing fence, yielding `"ok `" `, while the spec's
description (substring between the first marker and the next fence)
yields `"ok"`. -/
theorem c6_counterexample :
    extract_response_text fenceTricky = ("ok `").toList
    ∧ extract_spec_description fenceTricky = ("ok").toList
    ∧ extract_response_text fenceTricky ≠ extract_spec_description fenceTricky :=
  ⟨by decide, by decide, by decide⟩

/-- C6 amended: the spec's description of the extractor is exact whenever
the `'```json'` marker does not occur a second time after the first one
(in particular whenever it occurs at most once); the plain-fence branch
and the no-fence branch agree unconditionally. -/
theorem c6_amended_extractor (raw : List Char)
    (h : findSub? jsonFenceMark (afterFirst jsonFenceMark (pyStrip raw)) = none) :
    extract_response_text raw = extract_spec_description raw := by
  unfold extract_response_text extract_spec_description
  by_cases h1 : containsSub jsonFenceMark (pyStrip raw)
  · rw [if_pos h1, if_pos h1]
    obtain ⟨i, hi⟩ : ∃ i, findSub? jsonFenceMark (pyStrip raw) = some i := by
      unfold containsSub at h1
      cases hf : findSub? jsonFenceMark (pyStrip raw) with
      | none => rw [hf] at h1; simp at h1
      | some k => exact ⟨k, rfl⟩
    rw [pySplit_getD_one jsonFenceMark_ne_nil hi]
    have hafter : (pyStrip raw).drop (i + jsonFenceMark.length) =
        afterFirst jsonFenceMark (pyStrip raw) := by
      unfold afterFirst
      rw [hi]
    rw [hafter]
    have hbf : beforeFirst jsonFenceMark (afterFirst jsonFenceMark (pyStrip raw)) =
        afterFirst jsonFenceMark (pyStrip raw) := by
      unfold beforeFirst
      rw [h]
    rw [hbf, pySplit_headD fenceMark_ne_nil]
  · rw [if_neg h1, if_neg h1]
    by_cases h2 : containsSub fenceMark (pyStrip raw)
    · rw [if_pos h2, if_pos h2]
      obtain ⟨k, hk⟩ : ∃ k, findSub? fenceMark (pyStrip raw) = some k := by
        unfold containsSub at h2
        cases hf : findSub? fenceMark (pyStrip raw) with
        | none => rw [hf] at h2; simp at h2
        | some k => exact ⟨k, rfl⟩
      rw [pySplit_getD_one fenceMark_ne_nil hk]
      have hafter : (pyStrip raw).drop (k + fenceMark.length) =
          afterFirst fenceMark (pyStrip raw) := by
        unfold afterFirst
        rw [hk]
      rw [hafter, pySplit_headD fenceMark_ne_nil,
        beforeFirst_idem fenceMark_ne_nil]
    · rw [if_neg h2, if_neg h2]

def fenceGood : List Char := ("```json\n\x7b\"a\":1\x7d\n```").toList

/-- C6 witness: a well-formed fenced reply satisfies the amended
hypothesis, code and spec agree on it, and the fence is stripped. -/
theorem c6_amended_extractor_witness :
    findSub? jsonFenceMark (afterFirst jsonFenceMark (pyStrip fenceGood)) = none
    ∧ extract_response_text fenceGood = extract_spec_description fenceGood
    ∧ extract_response_text fenceGood = ("\x7b\"a\":1\x7d").toList :=
  ⟨by decide, c6_amended_extractor fenceGood (by decide), by decide⟩

/-! ## Claims C9 and C10: the `.format` calls that always raise -/

set_option maxRecDepth 10000 in
/-- The extraction prompt contains literal braces, so
`prompt.format(resume_text=…)` raises for every input. -/
theorem extract_format_raises (rt : List Char) :
    pyFormat [(resumeTextKey, rt)] extractPromptText = none := rfl

set_option maxRecDepth 10000 in
/-- The soft-skills prompt contains literal braces, so
`prompt.format(text=…)` raises for every input. -/
theorem soft_format_raises (rt : List Char) :
    pyFormat [(textKey, rt)] softSkillsPromptText = none := rfl

/-- `extract_resume_data` can only ever return its default schema. -/
theorem extract_resume_data_default (rt : List Char) (p : Option Json) :
    extract_resume_data rt p = defaultResumeData := by
  unfold extract_resume_data
  by_cases h : rt = []
  · rw [if_pos h]
  · rw [if_neg h, extract_format_raises]

/-- C9: for every non-empty resume text and every possible model reply,
`extract_resume_data` returns an object deep-equal to its default schema:
the prompt template's literal `{` characters make the `str.format` call
raise before any model output can be parsed, the exception handler
returns the defaults, and model-supplied values are never returned. -/
theorem c9_extract_returns_defaults (resume_text : List Char)
    (parsed : Option Json) (h : resume_text ≠ []) :
    extract_resume_data resume_text parsed = defaultResumeData
    ∧ pyFormat [(resumeTextKey, resume_text)] extractPromptText = none :=
  ⟨extract_resume_data_default resume_text parsed, extract_format_raises resume_text⟩

/-- C9 witness at a concrete non-empty resume and a decoded reply that
carries model-supplied values (which are discarded). -/
theorem c9_extract_returns_defaults_witness :
    (("ab").toList : List Char) ≠ []
    ∧ extract_resume_data (("ab").toList)
        (some (Json.obj [(("skills").toList, Json.arr [Json.str (("x").toList)])]))
        = defaultResumeData :=
  ⟨by decide,
   (c9_extract_returns_defaults (("ab").toList)
     (some (Json.obj [(("skills").toList, Json.arr [Json.str (("x").toList)])]))
     (by decide)).1⟩

/-- Shared evaluation: the soft-skills facet always yields `None`. -/
theorem soft_skills_eval_none (rt : List Char) (parsed : Option Json) :
    analyze_soft_skills_and_sentiment rt parsed = none := by
  unfold analyze_soft_skills_and_sentiment
  rw [soft_format_raises]

/-- C10: for every resume text and every possible model reply,
`analyze_soft_skills_and_sentiment` returns `None`: its prompt template's
literal `{` characters make the `str.format` call raise before the reply
can be parsed, and the enclosing handler returns `None` rather than any
soft-skills defaults. -/
theorem c10_soft_skills_always_none (resume_text : List Char)
    (parsed : Option Json) :
    analyze_soft_skills_and_sentiment resume_text parsed = none :=
  soft_skills_eval_none resume_text parsed

/-! ## Reconciliation-loop lemmas (towards C4/C5) -/

theorem lookupField_isSome_replace (fs : List (List Char × Json)) (k k' : List Char)
    (v : Json) :
    (lookupField (fs.map fun kv => if kv.1 = k then (kv.1, v) else kv) k').isSome
      = (lookupField fs k').isSome := by
  induction fs with
  | nil => rfl
  | cons kv rest ih =>
    obtain ⟨k0, v0⟩ := kv
    simp only [List.map_cons]
    by_cases h0 : k0 = k
    · rw [if_pos h0]
      simp only [lookupField]
      by_cases h : k' = k0
      · rw [if_pos h, if_pos h]
        rfl
      · rw [if_neg h, if_neg h]
        exact ih
    · rw [if_neg h0]
      simp only [lookupField]
      by_cases h : k' = k0
      · rw [if_pos h, if_pos h]
      · rw [if_neg h, if_neg h]
        exact ih

theorem lookupField_isSome_append (fs gs : List (List Char × Json)) (k : List Char) :
    (lookupField (fs ++ gs) k).isSome
      = ((lookupField fs k).isSome || (lookupField gs k).isSome) := by
  induction fs with
  | nil => simp [lookupField]
  | cons kv rest ih =>
    obtain ⟨k0, v0⟩ := kv
    simp only [List.cons_append, lookupField]
    by_cases h : k = k0
    · rw [if_pos h, if_pos h]
      simp
    · rw [if_neg h, if_neg h]
      exact ih

theorem objInsert_has_self (fs : List (List Char × Json)) (k : List Char) (v : Json) :
    (lookupField (objInsert fs k v) k).isSome = true := by
  unfold objInsert
  by_cases h : (lookupField fs k).isSome
  · rw [if_pos h, lookupField_isSome_replace]
    exact h
  · rw [if_neg h, lookupField_isSome_append]
    simp [lookupField]

theorem objInsert_keeps (fs : List (List Char × Json)) (k k' : List Char) (v : Json)
    (h : (lookupField fs k').isSome = true) :
    (lookupField (objInsert fs k v) k').isSome = true := by
  unfold objInsert
  by_cases hc : (lookupField fs k).isSome
  · rw [if_pos hc, lookupField_isSome_replace]
    exact h
  · rw [if_neg hc, lookupField_isSome_append, h]
    rfl

/-- On a dict the reconciliation loop cannot raise: it returns a dict that
keeps every existing key and has every schema key. -/
theorem reconcileLoop_obj (d : List (List Char × Json)) :
    ∀ fs, ∃ fs', reconcileLoop (Json.obj fs) d = some (Json.obj fs')
      ∧ (∀ k, (lookupField fs k).isSome = true → (lookupField fs' k).isSome = true)
      ∧ (∀ kd ∈ d, (lookupField fs' kd.1).isSome = true) := by
  induction d with
  | nil =>
    intro fs
    exact ⟨fs, rfl, fun _ h => h, by simp⟩
  | cons kd rest ih =>
    intro fs
    have hstep : ∃ fs₁, pyNotInThenSet (Json.obj fs) kd.1 kd.2 = some (Json.obj fs₁)
        ∧ (∀ k, (lookupField fs k).isSome = true → (lookupField fs₁ k).isSome = true)
        ∧ (lookupField fs₁ kd.1).isSome = true := by
      cases hc : (lookupField fs kd.1).isSome with
      | true =>
        refine ⟨fs, ?_, fun _ h => h, hc⟩
        simp [pyNotInThenSet, pyContains, hc]
      | false =>
        refine ⟨objInsert fs kd.1 kd.2, ?_, fun k h => objInsert_keeps fs kd.1 k kd.2 h,
          objInsert_has_self fs kd.1 kd.2⟩
        simp [pyNotInThenSet, pyContains, pySetItem, hc]
    obtain ⟨fs₁, hstep1, hkeep1, hself1⟩ := hstep
    obtain ⟨fs', hrec, hkeep, hall⟩ := ih fs₁
    refine ⟨fs', ?_, fun k h => hkeep k (hkeep1 k h), ?_⟩
    · unfold reconcileLoop at hrec ⊢
      rw [List.foldlM_cons, hstep1]
      simpa using hrec
    · intro kd' hmem
      rcases List.mem_cons.mp hmem with h | h
      · subst h
        exact hkeep kd'.1 hself1
      · exact hall kd' h

/-- On a non-dict the loop either raises or returns its input unchanged. -/
theorem reconcileLoop_nonobj (d : List (List Char × Json)) :
    ∀ j, (∀ fs, j ≠ Json.obj fs) → ∀ r, reconcileLoop j d = some r → r = j := by
  induction d with
  | nil =>
    intro j _ r hr
    unfold reconcileLoop at hr
    simp only [List.foldlM_nil] at hr
    exact (Option.some_inj.mp hr).symm
  | cons kd rest ih =>
    intro j hno r hr
    unfold reconcileLoop at hr
    rw [List.foldlM_cons] at hr
    cases j with
    | obj fs => exact absurd rfl (hno fs)
    | null => exact Option.noConfusion (show (none : Option Json) = some r from hr)
    | bool b => exact Option.noConfusion (show (none : Option Json) = some r from hr)
    | num q => exact Option.noConfusion (show (none : Option Json) = some r from hr)
    | arr xs =>
      cases hb : xs.any fun x => jsonEqStr x kd.1 with
      | true =>
        have hstep : pyNotInThenSet (Json.arr xs) kd.1 kd.2 = some (Json.arr xs) := by
          simp only [pyNotInThenSet, pyContains, hb]
        rw [hstep] at hr
        exact ih (Json.arr xs) hno r hr
      | false =>
        have hstep : pyNotInThenSet (Json.arr xs) kd.1 kd.2 = none := by
          simp only [pyNotInThenSet, pyContains, hb, pySetItem]
        rw [hstep] at hr
        exact Option.noConfusion (show (none : Option Json) = some r from hr)
    | str s =>
      cases hb : containsSub kd.1 s with
      | true =>
        have hstep : pyNotInThenSet (Json.str s) kd.1 kd.2 = some (Json.str s) := by
          simp only [pyNotInThenSet, pyContains, hb]
        rw [hstep] at hr
        exact ih (Json.str s) hno r hr
      | false =>
        have hstep : pyNotInThenSet (Json.str s) kd.1 kd.2 = none := by
          simp only [pyNotInThenSet, pyContains, hb, pySetItem]
        rw [hstep] at hr
        exact Option.noConfusion (show (none : Option Json) = some r from hr)

/-- When a facet's reconciliation loop produces a dict, that dict has
every key of the schema it was reconciled against. -/
theorem reconcile_result_keys {j : Json} {d fs : List (List Char × Json)}
    (h : reconcileLoop j d = some (Json.obj fs)) :
    ∀ kd ∈ d, (lookupField fs kd.1).isSome = true := by
  cases j with
  | obj fs₀ =>
    obtain ⟨fs', hrec, _, hall⟩ := reconcileLoop_obj d fs₀
    rw [hrec] at h
    have : Json.obj fs' = Json.obj fs := Option.some_inj.mp h
    cases this
    exact hall
  | null => exact Json.noConfusion (reconcileLoop_nonobj _ _ (fun _ h => Json.noConfusion h) _ h)
  | bool b => exact Json.noConfusion (reconcileLoop_nonobj _ _ (fun _ h => Json.noConfusion h) _ h)
  | num q => exact Json.noConfusion (reconcileLoop_nonobj _ _ (fun _ h => Json.noConfusion h) _ h)
  | arr xs => exact Json.noConfusion (reconcileLoop_nonobj _ _ (fun _ h => Json.noConfusion h) _ h)
  | str s => exact Json.noConfusion (reconcileLoop_nonobj _ _ (fun _ h => Json.noConfusion h) _ h)

/-! ## Claim C4 -/

/-- Every key of `defaults` is readable on `r` whenever `r` is a dict. -/
def objHasAllKeys (r : Option Json) (defaults : List (List Char × Json)) : Prop :=
  ∀ fs, r = some (Json.obj fs) → ∀ kd ∈ defaults, (lookupField fs kd.1).isSome = true

/-- Whether the nested read `j[outer][inner]` succeeds. -/
def hasNestedKeyB (j : Json) (outer inner : List Char) : Bool :=
  match j with
  | Json.obj fs =>
    match lookupField fs outer with
    | some (Json.obj pf) => (lookupField pf inner).isSome
    | _ => false
  | _ => false

/-- C4 counterexample: a reply supplying `{"domain_analysis": {}}` —
the key present but its sub-object empty — passes reconciliation
untouched at the nested level, so `result['domain_analysis']
['primary_domain']` is a missing-key read. -/
theorem c4_counterexample :
    analyze_ai_enhancements (("ab").toList) []
        (some (Json.obj [(("domain_analysis").toList, Json.obj [])]))
      = some (Json.obj
          [(("domain_analysis").toList, Json.obj []),
           (("enhancement_opportunities").toList, Json.arr []),
           (("fine_tuning_recommendations").toList, Json.obj
             [(("dataset_suggestions").toList, Json.arr []),
              (("model_improvements").toList, Json.arr []),
              (("context_enhancements").toList, Json.arr [])])])
    ∧ hasNestedKeyB (Json.obj
          [(("domain_analysis").toList, Json.obj []),
           (("enhancement_opportunities").toList, Json.arr []),
           (("fine_tuning_recommendations").toList, Json.obj
             [(("dataset_suggestions").toList, Json.arr []),
              (("model_improvements").toList, Json.arr []),
              (("context_enhancements").toList, Json.arr [])])])
        (("domain_analysis").toList) (("primary_domain").toList) = false :=
  ⟨rfl, rfl⟩

/-- C4 amended: every *top-level* schema key is present in any dict a
schema-bound facet returns, and `extract_resume_data` (which can only
return its full default schema) additionally has every nested
`personal_info` key; nested sub-objects of the other facets are not
backfilled, so a one-level-nested read can fail (see the
counterexample). -/
theorem c4_amended_top_level_keys (rt jd : List Char) (p : Option Json) :
    objHasAllKeys (analyze_ai_enhancements rt jd p) enhDefaults
    ∧ objHasAllKeys (analyze_resume_layout rt p) layoutDefaults
    ∧ objHasAllKeys (generate_candidate_summary rt jd p) summaryDefaults
    ∧ objHasAllKeys (some (extract_resume_data rt p)) extractDefaults
    ∧ (∀ f ∈ [("name").toList, ("email").toList, ("phone").toList,
        ("location").toList],
        hasNestedKeyB (extract_resume_data rt p) (("personal_info").toList) f
          = true) := by
  refine ⟨?_, ?_, ?_, ?_, ?_⟩
  · intro fs hfs kd hkd
    cases p with
    | none => exact Option.noConfusion hfs
    | some j =>
      exact reconcile_result_keys (show reconcileLoop j enhDefaults =
        some (Json.obj fs) from hfs) kd hkd
  · intro fs hfs kd hkd
    by_cases hrt : rt = []
    · unfold analyze_resume_layout at hfs
      rw [if_pos hrt] at hfs
      exact Option.noConfusion hfs
    · unfold analyze_resume_layout at hfs
      rw [if_neg hrt] at hfs
      cases p with
      | none => exact Option.noConfusion hfs
      | some j => exact reconcile_result_keys hfs kd hkd
  · intro fs hfs kd hkd
    cases p with
    | none => exact Option.noConfusion hfs
    | some j =>
      exact reconcile_result_keys (show reconcileLoop j summaryDefaults =
        some (Json.obj fs) from hfs) kd hkd
  · intro fs hfs kd hkd
    rw [extract_resume_data_default] at hfs
    have hobj : defaultResumeData = Json.obj fs := Option.some_inj.mp hfs
    rw [show fs = extractDefaults from (Json.obj.inj hobj).symm]
    fin_cases hkd <;> rfl
  · intro f hf
    rw [extract_resume_data_default]
    fin_cases hf <;> rfl

/-- C4 witness: concrete runs of the enhancement facet and the extractor
whose results have all top-level keys, and the extractor's nested
`personal_info.name`. -/
theorem c4_amended_top_level_keys_witness :
    (∀ kd ∈ enhDefaults, (lookupField enhDefaults kd.1).isSome = true)
    ∧ hasNestedKeyB (extract_resume_data (("ab").toList) (some (Json.obj [])))
        (("personal_info").toList) (("name").toList) = true := by
  constructor
  · intro kd hkd
    exact (c4_amended_top_level_keys (("ab").toList) [] (some (Json.obj []))).1
      enhDefaults rfl kd hkd
  · exact (c4_amended_top_level_keys (("ab").toList) []
      (some (Json.obj []))).2.2.2.2 (("name").toList) (by simp)

/-! ## Claim C5 -/

/-- C5 counterexample: on a decode failure (`json.JSONDecodeError`,
modelled by `parsed = none`) the layout, summary and enhancement facets
return `None` — not their schema defaults. -/
theorem c5_counterexample :
    analyze_resume_layout (("ab").toList) none = none
    ∧ generate_candidate_summary (("ab").toList) [] none = none
    ∧ analyze_ai_enhancements (("ab").toList) [] none = none
    ∧ (none : Option Json) ≠ some (Json.obj layoutDefaults) :=
  ⟨rfl, rfl, rfl, fun h => Option.noConfusion h⟩

/-- C5 amended: on a decode failure only `extract_resume_data` falls back
to its schema defaults verbatim (it does so for every reply);
`analyze_resume_layout`, `generate_candidate_summary`,
`analyze_ai_enhancements` and `analyze_soft_skills_and_sentiment` return
`None` for that facet instead. -/
theorem c5_amended_decode_failure (rt jd : List Char) :
    analyze_resume_layout rt none = none
    ∧ generate_candidate_summary rt jd none = none
    ∧ analyze_ai_enhancements rt jd none = none
    ∧ analyze_soft_skills_and_sentiment rt none = none
    ∧ extract_resume_data rt none = defaultResumeData := by
  refine ⟨?_, rfl, rfl, soft_skills_eval_none rt none,
    extract_resume_data_default rt none⟩
  unfold analyze_resume_layout
  split
  · rfl
  · rfl

/-! ## Claim C1 -/

/-- A run in which only the free-text evaluation facet fails: its gateway
call errors (`analysisText = none`) while every schema-bound facet's
reply decodes fine. -/
def gFail : GatewayReplies :=
  { extractParsed := none
    analysisText := none
    summaryParsed := some (Json.obj [])
    enhParsed := some (Json.obj [])
    layoutParsed := some (Json.obj []) }

set_option maxRecDepth 10000 in
/-- C1 counterexample: when the free-text evaluation fails, the candidate
summary, AI-enhancement and layout facets are *not* computed — even
though the summary facet's own reply would have produced a full result —
because lines 700–1108 of `app.py` sit inside `if analysis:`. -/
theorem c1_counterexample :
    gFail.analysisText = none
    ∧ generate_candidate_summary (("python developer").toList) [] gFail.summaryParsed
        = some (Json.obj summaryDefaults)
    ∧ (analyzeFlow (("python developer").toList) [] gFail).candidate_summary
        = Computed.notRun
    ∧ (analyzeFlow (("python developer").toList) [] gFail).layout_analysis
        = Computed.notRun
    ∧ (analyzeFlow (("python developer").toList) [] gFail).ai_enhancements
        = Computed.notRun :=
  ⟨rfl, rfl, rfl, rfl, rfl⟩

/-- C1 amended: structured extraction and the ATS score are computed on
every run, but the candidate summary, AI-enhancement, layout and course
facets are computed exactly when the free-text evaluation is truthy;
within such a run each of those facets is derived from its own gateway
outcome alone, so failures of the schema-bound facets do not propagate to
one another. -/
theorem c1_amended_gating (rt jd : List Char) (g : GatewayReplies) :
    (analyzeFlow rt jd g).resume_data
        = Computed.ran (extract_resume_data rt g.extractParsed)
    ∧ (analyzeFlow rt jd g).analysis
        = Computed.ran (analyze_resume rt jd g.analysisText)
    ∧ (analyzeFlow rt jd g).ats = Computed.ran (calculate_ats_score rt jd)
    ∧ (analyzeFlow rt jd g).candidate_summary =
        (if truthyAnalysis (analyze_resume rt jd g.analysisText)
         then Computed.ran (generate_candidate_summary rt jd g.summaryParsed)
         else Computed.notRun)
    ∧ (analyzeFlow rt jd g).ai_enhancements =
        (if truthyAnalysis (analyze_resume rt jd g.analysisText)
         then Computed.ran (analyze_ai_enhancements rt jd g.enhParsed)
         else Computed.notRun)
    ∧ (analyzeFlow rt jd g).layout_analysis =
        (if truthyAnalysis (analyze_resume rt jd g.analysisText)
         then Computed.ran (analyze_resume_layout rt g.layoutParsed)
         else Computed.notRun)
    ∧ (analyzeFlow rt jd g).course_skills =
        (if truthyAnalysis (analyze_resume rt jd g.analysisText) = true
            ∧ qualTokens jd ≠ ∅
         then Computed.ran (qualTokens jd)
         else Computed.notRun) := by
  have hrd : extract_resume_data rt g.extractParsed = defaultResumeData :=
    extract_resume_data_default rt g.extractParsed
  unfold analyzeFlow
  rw [hrd]
  cases h : truthyAnalysis (analyze_resume rt jd g.analysisText) with
  | false => simp [h]
  | true =>
    have hsk : pySkillsOf defaultResumeData = [] := rfl
    by_cases hjd : jd = []
    · subst hjd
      simp [h, hsk, qualTokens_nil]
    · by_cases hq : qualTokens jd = ∅
      · simp [h, hsk, hjd, hq]
      · simp [h, hsk, hjd, hq]

/-! ## Claim C7 -/

theorem mapM_lowerStr (l : List (List Char)) :
    (l.map Json.str).mapM lowerStrElem = some (l.map lowerW) := by
  induction l with
  | nil => rfl
  | cons s rest ih =>
    rw [List.map_cons, List.mapM_cons, ih]
    rfl

theorem pyLowerStrSet_strings (l : List (List Char)) :
    pyLowerStrSet (Json.arr (l.map Json.str)) = some ((l.map lowerW).toFinset) := by
  show Option.map List.toFinset ((l.map Json.str).mapM lowerStrElem) = _
  rw [mapM_lowerStr]
  rfl

/-- C7: on any extracted `resume_data` (the five-key schema shape with a
string skill list and a list of experience entries),
`calculate_detailed_scores` returns `experience_score =
min 100 (20·|experience|)` (so three entries give 60) and
`total_score = ats·0.30 + skills·0.40 + experience·0.30` rounded to two
decimals, where the skills score is the overlap of the lowered extracted
skills with the qualifying job-description tokens. -/
theorem c7_detailed_scores (rt jd : List Char) (pi edu certs : Json)
    (skills : List (List Char)) (exps : List Json) :
    calculate_detailed_scores rt jd (Json.obj
      [(("personal_info").toList, pi),
       (("skills").toList, Json.arr (skills.map Json.str)),
       (("education").toList, edu),
       (("experience").toList, Json.arr exps),
       (("certifications").toList, certs)]) =
      some
        { total_score := round2
            ((if qualTokens jd = ∅ then 0
              else (((qualTokens rt ∩ qualTokens jd).card : ℚ) /
                ((qualTokens jd).card : ℚ)) * 100) * (3 / 10)
             + (if qualTokens jd = ∅ then 0
                else (((qualTokens jd ∩ (skills.map lowerW).toFinset).card : ℚ) /
                  ((qualTokens jd).card : ℚ)) * 100) * (4 / 10)
             + ((min 100 (exps.length * 20) : ℕ) : ℚ) * (3 / 10))
          ats_score := round2
            (if qualTokens jd = ∅ then 0
             else (((qualTokens rt ∩ qualTokens jd).card : ℚ) /
               ((qualTokens jd).card : ℚ)) * 100)
          skills_score := round2
            (if qualTokens jd = ∅ then 0
             else (((qualTokens jd ∩ (skills.map lowerW).toFinset).card : ℚ) /
               ((qualTokens jd).card : ℚ)) * 100)
          experience_score := ((min 100 (exps.length * 20) : ℕ) : ℚ)
          matched_skills := qualTokens jd ∩ (skills.map lowerW).toFinset
          missing_skills := qualTokens jd \ (skills.map lowerW).toFinset } := by
  have h1 : lookupField
      [(("personal_info").toList, pi),
       (("skills").toList, Json.arr (skills.map Json.str)),
       (("education").toList, edu),
       (("experience").toList, Json.arr exps),
       (("certifications").toList, certs)] (("skills").toList)
      = some (Json.arr (skills.map Json.str)) := rfl
  have h2 : lookupField
      [(("personal_info").toList, pi),
       (("skills").toList, Json.arr (skills.map Json.str)),
       (("education").toList, edu),
       (("experience").toList, Json.arr exps),
       (("certifications").toList, certs)] (("experience").toList)
      = some (Json.arr exps) := rfl
  simp only [calculate_detailed_scores, h1, h2, Option.getD_some,
    pyLowerStrSet_strings, pyLen, round2_natCast]
